import Mathlib

/-!
Shallow embedding of `opl/get_kafka_times.py` (class `GetKafkaTimes` and the
entry point `get_kafka_times`).

The Python object state that the consumption loop reads and writes is carried
in an explicit record `St`.  External collaborators (the PostgreSQL cursor
results, the wall clock, the `remaining_count` query) are modelled as oracle
streams in `Env`, consumed at successive indices (`flushIdx`, `refreshIdx`,
`clockIdx`) exactly at the program points where the source calls them.
Besides the fields present in the source, `St` carries write-only ghost logs
(`commits`, `flushLog`, `flushTriggers`, `processed`, `consumerCreated`) that
record observable events; no definition ever reads them.
-/

namespace GetKafkaTimes

/-- Outcome of `cursor.fetchall()` after the `store_info` write in `store_now`
(source lines 100-104): the driver can raise `psycopg2.ProgrammingError`
(caught, `updated = []`), and the code additionally defends against a `None`
result (`if updated is None`), otherwise a list of updated rows is returned. -/
inductive FetchOutcome (Row : Type) where
  | progError : FetchOutcome Row
  | retNone : FetchOutcome Row
  | rows : List Row → FetchOutcome Row
deriving DecidableEq

/-- Oracle streams for the external collaborators of the loop: `fetch k` is the
result of the fetch in the `k`-th call to `store_now`; `refresh k` is the value
returned by the `k`-th `remaining_count` query issued by
`update_remaining_count`; `clock k` is the `k`-th value of `dt_now()`;
`maxQuietPeriod` is `args.max_quiet_period` (a timedelta, modelled as `Int`). -/
structure Env (Item Row : Type) where
  fetch : Nat → FetchOutcome Row
  refresh : Nat → Nat
  clock : Nat → Int
  maxQuietPeriod : Int

/-- The argument of `consumer.commit_async` in `process_messages` (source lines
159-162): `TopicPartition(message.topic, message.partition)` mapped to
`OffsetAndMetadata(message.offset + 1, b'')`. -/
structure Offsets where
  topic : String
  partition : Nat
  offset : Nat
  metadata : String
deriving DecidableEq

/-- A Kafka message as the loop body observes it.  `valid` is the (opaque,
injected) result of `custom_methods['message_validation'](value)` and
`payload` is the result of `custom_methods['process_message'](...)` for this
message; both are external capabilities, so they are data of the message. -/
structure Msg (Item : Type) where
  topic : String
  partition : Nat
  offset : Nat
  timestamp : Int
  valid : Bool
  payload : Item
deriving DecidableEq

/-- Mutable state of a `GetKafkaTimes` object, plus ghost logs.
`flushIdx`, `refreshIdx`, `clockIdx` count the oracle calls made so far.
`commits` logs every offset submitted via `commit_async`; `flushLog` logs the
value returned by each `store_now` call; `flushTriggers` logs, for each flush
triggered from `store_item`, the buffer length and `remaining_count` at the
moment of the trigger; `processed` counts loop-body iterations;
`consumerCreated` records that `create_consumer` ran. -/
structure St (Item : Type) where
  remaining_count : Nat
  stored_counter : Nat := 0
  waiting_items : List Item := []
  last_stored_at : Int := 0
  flushIdx : Nat := 0
  refreshIdx : Nat := 0
  clockIdx : Nat := 0
  processed : Nat := 0
  commits : List Offsets := []
  flushLog : List Nat := []
  flushTriggers : List (Nat × Nat) := []
  consumerCreated : Bool := false
deriving DecidableEq

/-- `self.batches_size = 500` (source line 43). -/
def batches_size : Nat := 500

/-- `GetKafkaTimes.store_now` (source lines 90-119).  Executes the
`store_info` write with `waiting_items`, fetches the updated rows (oracle
`fetch`), clears the buffer unconditionally, and then: if the fetch result is
`None`, returns 0 touching nothing else; otherwise sets `updated = len(rows)`,
adds it to `stored_counter`, sets `last_stored_at = dt_now()` and runs
`update_remaining_count` (oracle `refresh`), returning `updated`. -/
def store_now {Item Row : Type} (env : Env Item Row) (st : St Item) :
    Nat × St Item :=
  let updatedOpt : Option (List Row) :=
    match env.fetch st.flushIdx with
    | FetchOutcome.progError => some []
    | FetchOutcome.retNone => none
    | FetchOutcome.rows l => some l
  let st1 : St Item := { st with flushIdx := st.flushIdx + 1, waiting_items := [] }
  match updatedOpt with
  | none => (0, { st1 with flushLog := st1.flushLog ++ [0] })
  | some l =>
    let updated := l.length
    (updated,
      { st1 with
        stored_counter := st1.stored_counter + updated,
        last_stored_at := env.clock st1.clockIdx,
        clockIdx := st1.clockIdx + 1,
        remaining_count := env.refresh st1.refreshIdx,
        refreshIdx := st1.refreshIdx + 1,
        flushLog := st1.flushLog ++ [updated] })

/-- `GetKafkaTimes.store_item` (source lines 121-126): append the item to
`waiting_items`; if the buffer length reached `batches_size` or
`remaining_count`, call `store_now` (the ghost `flushTriggers` entry records
the buffer length and `remaining_count` at this trigger point). -/
def store_item {Item Row : Type} (env : Env Item Row) (item : Item)
    (st : St Item) : St Item :=
  let st1 : St Item := { st with waiting_items := st.waiting_items ++ [item] }
  if st1.waiting_items.length ≥ batches_size ∨
      st1.waiting_items.length ≥ st1.remaining_count then
    (store_now env
      { st1 with flushTriggers :=
          st1.flushTriggers ++ [(st1.waiting_items.length, st1.remaining_count)] }).2
  else
    st1

/-- The offset submitted for a message: `OffsetAndMetadata(offset + 1, b'')`
keyed by `TopicPartition(topic, partition)` (source lines 159-161). -/
def offsetOf {Item : Type} (m : Msg Item) : Offsets :=
  { topic := m.topic, partition := m.partition, offset := m.offset + 1,
    metadata := "" }

/-- `consumer.commit_async(offsets, verify_async_commit)` (source line 162),
recorded in the ghost `commits` log. -/
def commitOffset {Item : Type} (m : Msg Item) (st : St Item) : St Item :=
  { st with commits := st.commits ++ [offsetOf m] }

/-- Exit paths of `process_messages`: the early `return 0` (source line 137),
the `break` when `remaining_count == 0` (line 156), exhaustion of the consumer
iterator (`consumer_timeout_ms`), and the `break` after an ineffective forced
flush (line 173). -/
inductive Exit where
  | initialZero
  | remainingZero
  | sourceExhausted
  | quietGiveUp
deriving DecidableEq

/-- Result of one loop-body iteration: continue with the next message, or
break out of the `for` loop with an exit tag. -/
inductive StepRes (Item : Type) where
  | cont : St Item → StepRes Item
  | brk : St Item → Exit → StepRes Item
deriving DecidableEq

/-- The state carried by a `StepRes`. -/
def StepRes.state {Item : Type} : StepRes Item → St Item
  | StepRes.cont st => st
  | StepRes.brk st _ => st

/-- The exit tag carried by a `StepRes`, if it breaks. -/
def StepRes.exitOf {Item : Type} : StepRes Item → Option Exit
  | StepRes.cont _ => none
  | StepRes.brk _ e => some e

/-- The quiet-period checkpoint at the end of the loop body (source lines
164-173): compute `quiet_period = dt_now() - last_stored_at`; if it exceeds
`max_quiet_period`, force `store_now`; continue if it updated more than zero
rows, otherwise break. -/
def quietCheckpoint {Item Row : Type} (env : Env Item Row) (st : St Item) :
    StepRes Item :=
  let quiet_period : Int := env.clock st.clockIdx - st.last_stored_at
  let st1 : St Item := { st with clockIdx := st.clockIdx + 1 }
  if quiet_period > env.maxQuietPeriod then
    let r := store_now env st1
    if r.1 > 0 then StepRes.cont r.2 else StepRes.brk r.2 Exit.quietGiveUp
  else
    StepRes.cont st1

/-- One iteration of the `for message in consumer` body (source lines
143-173): validate; if valid, `store_item` the transformed value and break
when `remaining_count == 0` (before any commit); otherwise submit the offset
for async commit and run the quiet-period checkpoint. -/
def handleMessage {Item Row : Type} (env : Env Item Row) (m : Msg Item)
    (st : St Item) : StepRes Item :=
  let st0 : St Item := { st with processed := st.processed + 1 }
  if m.valid then
    let st1 := store_item env m.payload st0
    if st1.remaining_count = 0 then
      StepRes.brk st1 Exit.remainingZero
    else
      quietCheckpoint env (commitOffset m st1)
  else
    quietCheckpoint env (commitOffset m st0)

/-- The `for message in consumer` loop: the consumer is modelled as the list
of messages it would yield before its `consumer_timeout_ms` elapses; list
exhaustion is the source-level timeout. -/
def consumeLoop {Item Row : Type} (env : Env Item Row) :
    List (Msg Item) → St Item → St Item × Exit
  | [], st => (st, Exit.sourceExhausted)
  | m :: rest, st =>
    match handleMessage env m st with
    | StepRes.brk st1 e => (st1, e)
    | StepRes.cont st1 => consumeLoop env rest st1

/-- Result of a `process_messages` run: the returned value, the state at loop
exit (before the final flush), the final state, and the exit path taken. -/
structure RunResult (Item : Type) where
  result : Nat
  stExit : St Item
  stFin : St Item
  exit : Exit
deriving DecidableEq

/-- The state right before the loop starts: `self.last_stored_at =
self.dt_now()` (source line 140) followed by `create_consumer()` (line 142). -/
def stStart {Item Row : Type} (env : Env Item Row) (st : St Item) : St Item :=
  { st with last_stored_at := env.clock st.clockIdx,
            clockIdx := st.clockIdx + 1,
            consumerCreated := true }

/-- `GetKafkaTimes.process_messages` (source lines 128-177): return 0 at once
if `remaining_count == 0`; otherwise set `last_stored_at = dt_now()`, create
the consumer, run the loop, perform one final `store_now`, and return
`stored_counter`. -/
def process_messages {Item Row : Type} (env : Env Item Row)
    (msgs : List (Msg Item)) (st : St Item) : RunResult Item :=
  if st.remaining_count = 0 then
    { result := 0, stExit := st, stFin := st, exit := Exit.initialZero }
  else
    let le := consumeLoop env msgs (stStart env st)
    let r := store_now env le.1
    { result := r.2.stored_counter, stExit := le.1, stFin := r.2, exit := le.2 }

/-- The five keys asserted on `custom_methods` at the top of the
`get_kafka_times` entry point (source lines 237-241), in source order. -/
def requiredCustomMethods : List String :=
  ["message_validation", "process_message", "count_sd_name",
   "biggest_sd_name", "start_end_col_table_name"]

/-- The assert block of `get_kafka_times` (source lines 237-241), run before
the `GetKafkaTimes` object is constructed: it succeeds exactly when every one
of the five required keys is present in `custom_methods`. -/
def get_kafka_times_asserts (custom_methods : List String) : Bool :=
  requiredCustomMethods.all (fun k => custom_methods.contains k)

/-! ## Concrete fixtures used by counterexamples and witnesses -/

/-- A freshly constructed object state: `__init__` leaves `stored_counter = 0`
and `waiting_items = []`; `remaining_count` is whatever the first
`remaining_count` query returned. -/
def stFresh (r : Nat) : St Nat := { remaining_count := r }

/-- Environment whose every flush fetch yields an empty row list (an
update that matched zero rows). -/
def envEmptyRows : Env Nat Nat :=
  { fetch := fun _ => FetchOutcome.rows [], refresh := fun _ => 7,
    clock := fun _ => 99, maxQuietPeriod := 10 }

/-- Environment whose every flush fetch raises `psycopg2.ProgrammingError`
(the store query produced no result set). -/
def envProgError : Env Nat Nat :=
  { fetch := fun _ => FetchOutcome.progError, refresh := fun _ => 3,
    clock := fun _ => 5, maxQuietPeriod := 10 }

/-- Environment whose every flush fetch returns `None` (the branch the source
defends against with `if updated is None`). -/
def envRetNone : Env Nat Nat :=
  { fetch := fun _ => FetchOutcome.retNone, refresh := fun _ => 3,
    clock := fun _ => 5, maxQuietPeriod := 10 }

/-- Environment for a run in which the first flush updates one row and the
refreshed remaining count is 0: one valid message suffices to finish. -/
def env2 : Env Nat Nat :=
  { fetch := fun k => if k = 0 then FetchOutcome.rows [0] else FetchOutcome.retNone,
    refresh := fun _ => 0, clock := fun k => Int.ofNat k, maxQuietPeriod := 1000 }

/-- One valid message for the `env2` run. -/
def msgs2 : List (Msg Nat) :=
  [{ topic := "t", partition := 0, offset := 5, timestamp := 0, valid := true,
     payload := 42 }]

/-- Environment for a run in which a quiet-period forced flush is effective
(one row updated) but refreshes the remaining count to 0, after which the loop
keeps consuming. -/
def env5 : Env Nat Nat :=
  { fetch := fun k => if k = 0 then FetchOutcome.rows [9] else FetchOutcome.rows [],
    refresh := fun _ => 0,
    clock := fun k => if k = 1 then 1000 else 0,
    maxQuietPeriod := 10 }

/-- Two valid messages for the `env5` run. -/
def msgs5 : List (Msg Nat) :=
  [{ topic := "t", partition := 0, offset := 1, timestamp := 0, valid := true,
     payload := 1 },
   { topic := "t", partition := 0, offset := 2, timestamp := 0, valid := true,
     payload := 2 }]

/-- Buffer invariant maintained between `store_item` calls: the buffer stays
strictly below `min(batches_size, max(1, remaining_count))` (when
`remaining_count = 0` the buffer must be empty, since any single appended item
then immediately triggers a flush). -/
def BufInv {Item : Type} (st : St Item) : Prop :=
  st.waiting_items.length < min batches_size (max 1 st.remaining_count)

/-- Every flush trigger logged so far respected the (corrected) cap
`min(batches_size, max(1, remaining_count))`. -/
def TriggerInv {Item : Type} (st : St Item) : Prop :=
  ∀ p ∈ st.flushTriggers, p.1 ≤ min batches_size (max 1 p.2)

/-! ## Helper lemmas about `store_now` -/

/-- `store_now` never touches the ghost `commits` log. -/
theorem store_now_commits {Item Row : Type} (env : Env Item Row) (st : St Item) :
    (store_now env st).2.commits = st.commits := by
  cases h : env.fetch st.flushIdx <;> simp [store_now, h]

/-- `store_now` never touches the ghost `processed` counter. -/
theorem store_now_processed {Item Row : Type} (env : Env Item Row) (st : St Item) :
    (store_now env st).2.processed = st.processed := by
  cases h : env.fetch st.flushIdx <;> simp [store_now, h]

/-- `store_now` never touches the ghost `flushTriggers` log. -/
theorem store_now_flushTriggers {Item Row : Type} (env : Env Item Row)
    (st : St Item) : (store_now env st).2.flushTriggers = st.flushTriggers := by
  cases h : env.fetch st.flushIdx <;> simp [store_now, h]

/-- `store_now` never touches the `consumerCreated` marker. -/
theorem store_now_consumerCreated {Item Row : Type} (env : Env Item Row)
    (st : St Item) : (store_now env st).2.consumerCreated = st.consumerCreated := by
  cases h : env.fetch st.flushIdx <;> simp [store_now, h]

/-- `store_now` empties `waiting_items` on every path. -/
theorem store_now_buffer {Item Row : Type} (env : Env Item Row) (st : St Item) :
    (store_now env st).2.waiting_items = [] := by
  cases h : env.fetch st.flushIdx <;> simp [store_now, h]

/-- `store_now` adds its returned count to `stored_counter`. -/
theorem store_now_stored_counter {Item Row : Type} (env : Env Item Row)
    (st : St Item) :
    (store_now env st).2.stored_counter = st.stored_counter + (store_now env st).1 := by
  cases h : env.fetch st.flushIdx <;> simp [store_now, h]

/-- `store_now` appends its returned count to the ghost `flushLog`. -/
theorem store_now_flushLog {Item Row : Type} (env : Env Item Row) (st : St Item) :
    (store_now env st).2.flushLog = st.flushLog ++ [(store_now env st).1] := by
  cases h : env.fetch st.flushIdx <;> simp [store_now, h]

/-- `store_now` consumes exactly one `fetch` oracle value. -/
theorem store_now_flushIdx {Item Row : Type} (env : Env Item Row) (st : St Item) :
    (store_now env st).2.flushIdx = st.flushIdx + 1 := by
  cases h : env.fetch st.flushIdx <;> simp [store_now, h]

/-- An effective `store_now` sets `last_stored_at` to the `dt_now()` value it
read. -/
theorem store_now_pos_last {Item Row : Type} (env : Env Item Row) (st : St Item) :
    0 < (store_now env st).1 →
    (store_now env st).2.last_stored_at = env.clock st.clockIdx := by
  cases h : env.fetch st.flushIdx <;> simp [store_now, h]

/-! ## Helper lemmas about `store_item`, `quietCheckpoint`, `handleMessage` -/

/-- `store_item` never touches the ghost `commits` log. -/
theorem store_item_commits {Item Row : Type} (env : Env Item Row) (item : Item)
    (st : St Item) : (store_item env item st).commits = st.commits := by
  unfold store_item
  dsimp only
  split
  · simp [store_now_commits]
  · simp

/-- `store_item` never touches the ghost `processed` counter. -/
theorem store_item_processed {Item Row : Type} (env : Env Item Row) (item : Item)
    (st : St Item) : (store_item env item st).processed = st.processed := by
  unfold store_item
  dsimp only
  split
  · simp [store_now_processed]
  · simp

/-- Flush-count bookkeeping through `store_item`: the increase of
`stored_counter` equals the sum of the `flushLog` entries it appended. -/
theorem store_item_counter {Item Row : Type} (env : Env Item Row) (item : Item)
    (st : St Item) :
    (store_item env item st).stored_counter + st.flushLog.sum =
      st.stored_counter + (store_item env item st).flushLog.sum := by
  unfold store_item
  dsimp only
  split
  · simp [store_now_stored_counter, store_now_flushLog]
    omega
  · simp

/-- The state a `quietCheckpoint` hands on keeps the `commits` log. -/
theorem quietCheckpoint_commits {Item Row : Type} (env : Env Item Row)
    (st : St Item) : (quietCheckpoint env st).state.commits = st.commits := by
  unfold quietCheckpoint
  dsimp only
  split
  · split <;> simp [StepRes.state, store_now_commits]
  · simp [StepRes.state]

/-- The state a `quietCheckpoint` hands on keeps the `processed` counter. -/
theorem quietCheckpoint_processed {Item Row : Type} (env : Env Item Row)
    (st : St Item) : (quietCheckpoint env st).state.processed = st.processed := by
  unfold quietCheckpoint
  dsimp only
  split
  · split <;> simp [StepRes.state, store_now_processed]
  · simp [StepRes.state]

/-- A `quietCheckpoint` either continues, or breaks with `quietGiveUp` right
after a forced flush that returned 0 (its `flushLog` then ends in 0). -/
theorem quietCheckpoint_exit {Item Row : Type} (env : Env Item Row)
    (st : St Item) :
    (quietCheckpoint env st).exitOf = none ∨
    ((quietCheckpoint env st).exitOf = some Exit.quietGiveUp ∧
      (quietCheckpoint env st).state.flushLog.getLast? = some 0) := by
  unfold quietCheckpoint
  dsimp only
  split
  · rcases Nat.eq_zero_or_pos (store_now env
      { st with clockIdx := st.clockIdx + 1 }).1 with h0 | h0
    · right
      rw [if_neg (by omega)]
      refine ⟨rfl, ?_⟩
      rw [StepRes.state, store_now_flushLog, h0]
      simp
    · left
      rw [if_pos (by omega)]
      rfl
  · left
    rfl

/-- Flush-count bookkeeping through `quietCheckpoint`. -/
theorem quietCheckpoint_counter {Item Row : Type} (env : Env Item Row)
    (st : St Item) :
    (quietCheckpoint env st).state.stored_counter + st.flushLog.sum =
      st.stored_counter + (quietCheckpoint env st).state.flushLog.sum := by
  unfold quietCheckpoint
  dsimp only
  split
  · split <;> simp [StepRes.state, store_now_stored_counter, store_now_flushLog] <;> omega
  · simp [StepRes.state]

/-- Each loop-body iteration advances the ghost `processed` counter by one. -/
theorem handleMessage_processed {Item Row : Type} (env : Env Item Row)
    (m : Msg Item) (st : St Item) :
    (handleMessage env m st).state.processed = st.processed + 1 := by
  unfold handleMessage
  dsimp only
  split
  · split
    · simp [StepRes.state, store_item_processed]
    · rw [quietCheckpoint_processed]
      simp [commitOffset, store_item_processed]
  · rw [quietCheckpoint_processed]
    simp [commitOffset]

/-- A loop-body iteration submits the message's offset for async commit
exactly when it does not break with `remainingZero`: the `remaining_count == 0`
break (source line 156) happens before `commit_async` (source line 162). -/
theorem handleMessage_commits {Item Row : Type} (env : Env Item Row)
    (m : Msg Item) (st : St Item) :
    ((handleMessage env m st).exitOf = some Exit.remainingZero ∧
      (handleMessage env m st).state.commits = st.commits) ∨
    ((handleMessage env m st).exitOf ≠ some Exit.remainingZero ∧
      (handleMessage env m st).state.commits = st.commits ++ [offsetOf m]) := by
  unfold handleMessage
  dsimp only
  split
  · split
    · left
      exact ⟨rfl, by simp [StepRes.state, store_item_commits]⟩
    · right
      constructor
      · rcases quietCheckpoint_exit env (commitOffset m (store_item env m.payload
          { st with processed := st.processed + 1 })) with h | h
        · simp [h]
        · simp [h.1]
      · rw [quietCheckpoint_commits]
        simp [commitOffset, store_item_commits]
  · right
    constructor
    · rcases quietCheckpoint_exit env (commitOffset m
        { st with processed := st.processed + 1 }) with h | h
      · simp [h]
      · simp [h.1]
    · rw [quietCheckpoint_commits]
      simp [commitOffset]

/-- A loop-body iteration either continues, breaks with `remainingZero` in a
state whose remaining count is 0, or breaks with `quietGiveUp` right after a
forced flush that returned 0. -/
theorem handleMessage_exit {Item Row : Type} (env : Env Item Row)
    (m : Msg Item) (st : St Item) :
    (handleMessage env m st).exitOf = none ∨
    ((handleMessage env m st).exitOf = some Exit.remainingZero ∧
      (handleMessage env m st).state.remaining_count = 0) ∨
    ((handleMessage env m st).exitOf = some Exit.quietGiveUp ∧
      (handleMessage env m st).state.flushLog.getLast? = some 0) := by
  unfold handleMessage
  dsimp only
  split
  · split
    · right; left
      exact ⟨rfl, by assumption⟩
    · rcases quietCheckpoint_exit env (commitOffset m (store_item env m.payload
        { st with processed := st.processed + 1 })) with h | h
      · left; exact h
      · right; right; exact h
  · rcases quietCheckpoint_exit env (commitOffset m
      { st with processed := st.processed + 1 }) with h | h
    · left; exact h
    · right; right; exact h

/-- `commitOffset` keeps `stored_counter`. -/
theorem commitOffset_stored_counter {Item : Type} (m : Msg Item) (st : St Item) :
    (commitOffset m st).stored_counter = st.stored_counter := rfl

/-- `commitOffset` keeps `flushLog`. -/
theorem commitOffset_flushLog {Item : Type} (m : Msg Item) (st : St Item) :
    (commitOffset m st).flushLog = st.flushLog := rfl

/-- Flush-count bookkeeping through one loop-body iteration. -/
theorem handleMessage_counter {Item Row : Type} (env : Env Item Row)
    (m : Msg Item) (st : St Item) :
    (handleMessage env m st).state.stored_counter + st.flushLog.sum =
      st.stored_counter + (handleMessage env m st).state.flushLog.sum := by
  unfold handleMessage
  dsimp only
  split
  · split
    · have h1 := store_item_counter env m.payload
        { st with processed := st.processed + 1 }
      simp only [StepRes.state]
      simpa using h1
    · show (quietCheckpoint env (commitOffset m (store_item env m.payload
          { st with processed := st.processed + 1 }))).state.stored_counter +
            st.flushLog.sum =
          st.stored_counter +
            (quietCheckpoint env (commitOffset m (store_item env m.payload
              { st with processed := st.processed + 1 }))).state.flushLog.sum
      have h1 := store_item_counter env m.payload
        { st with processed := st.processed + 1 }
      have h2 := quietCheckpoint_counter env (commitOffset m (store_item env
        m.payload { st with processed := st.processed + 1 }))
      rw [commitOffset_stored_counter, commitOffset_flushLog] at h2
      dsimp only at h1
      omega
  · show (quietCheckpoint env (commitOffset m
        { st with processed := st.processed + 1 })).state.stored_counter +
          st.flushLog.sum =
        st.stored_counter +
          (quietCheckpoint env (commitOffset m
            { st with processed := st.processed + 1 })).state.flushLog.sum
    have h2 := quietCheckpoint_counter env (commitOffset m
      { st with processed := st.processed + 1 })
    rw [commitOffset_stored_counter, commitOffset_flushLog] at h2
    dsimp only at h2
    omega

/-! ## Loop-level lemmas -/

/-- The loop exits with `remainingZero` only in a state whose remaining count
is 0, with `sourceExhausted` only after all messages were handled, and with
`quietGiveUp` only right after a flush that returned 0. -/
theorem consumeLoop_exit {Item Row : Type} (env : Env Item Row)
    (msgs : List (Msg Item)) (st : St Item) :
    ((consumeLoop env msgs st).2 = Exit.remainingZero ∧
      (consumeLoop env msgs st).1.remaining_count = 0) ∨
    ((consumeLoop env msgs st).2 = Exit.sourceExhausted ∧
      (consumeLoop env msgs st).1.processed = st.processed + msgs.length) ∨
    ((consumeLoop env msgs st).2 = Exit.quietGiveUp ∧
      (consumeLoop env msgs st).1.flushLog.getLast? = some 0) := by
  induction msgs generalizing st with
  | nil =>
    right; left
    simp [consumeLoop]
  | cons m rest ih =>
    have hx := handleMessage_exit env m st
    have hp := handleMessage_processed env m st
    cases hh : handleMessage env m st with
    | brk st1 e =>
      rw [hh] at hx
      simp only [StepRes.exitOf, StepRes.state, Option.some.injEq] at hx
      simp only [consumeLoop, hh]
      rcases hx with hx | hx | hx
      · exact absurd hx (by simp)
      · left
        exact ⟨hx.1 ▸ rfl, hx.2⟩
      · right; right
        exact ⟨hx.1 ▸ rfl, hx.2⟩
    | cont st1 =>
      rw [hh] at hp
      simp only [StepRes.state] at hp
      simp only [consumeLoop, hh]
      rcases ih st1 with h | h | h
      · left; exact h
      · right; left
        refine ⟨h.1, ?_⟩
        rw [h.2, hp]
        simp only [List.length_cons]
        omega
      · right; right; exact h

/-- Flush-count bookkeeping through the loop: the increase of `stored_counter`
equals the sum of the `flushLog` entries appended during the loop. -/
theorem consumeLoop_counter {Item Row : Type} (env : Env Item Row)
    (msgs : List (Msg Item)) (st : St Item) :
    (consumeLoop env msgs st).1.stored_counter + st.flushLog.sum =
      st.stored_counter + (consumeLoop env msgs st).1.flushLog.sum := by
  induction msgs generalizing st with
  | nil => simp [consumeLoop]
  | cons m rest ih =>
    have hc := handleMessage_counter env m st
    cases hh : handleMessage env m st with
    | brk st1 e =>
      rw [hh] at hc
      simp only [StepRes.state] at hc
      simp only [consumeLoop, hh]
      exact hc
    | cont st1 =>
      rw [hh] at hc
      simp only [StepRes.state] at hc
      simp only [consumeLoop, hh]
      have := ih st1
      omega

/-- Commit bookkeeping through the loop: the offsets submitted during the loop
are exactly those of the handled messages, except that the message on which
the loop breaks with `remainingZero` is handled without a commit. -/
theorem consumeLoop_commits {Item Row : Type} (env : Env Item Row)
    (msgs : List (Msg Item)) (st : St Item) :
    st.processed ≤ (consumeLoop env msgs st).1.processed ∧
    (consumeLoop env msgs st).1.processed ≤ st.processed + msgs.length ∧
    ((consumeLoop env msgs st).2 = Exit.remainingZero →
      st.processed + 1 ≤ (consumeLoop env msgs st).1.processed ∧
      (consumeLoop env msgs st).1.commits = st.commits ++
        ((msgs.take ((consumeLoop env msgs st).1.processed - st.processed - 1)).map offsetOf)) ∧
    ((consumeLoop env msgs st).2 ≠ Exit.remainingZero →
      (consumeLoop env msgs st).1.commits = st.commits ++
        ((msgs.take ((consumeLoop env msgs st).1.processed - st.processed)).map offsetOf)) := by
  induction msgs generalizing st with
  | nil =>
    refine ⟨le_refl _, by simp [consumeLoop], ?_, ?_⟩
    · intro h
      simp [consumeLoop] at h
    · intro _
      simp [consumeLoop]
  | cons m rest ih =>
    have hp := handleMessage_processed env m st
    have hcm := handleMessage_commits env m st
    cases hh : handleMessage env m st with
    | brk st1 e =>
      rw [hh] at hp hcm
      simp only [StepRes.exitOf, StepRes.state, Option.some.injEq, ne_eq] at hp hcm
      simp only [consumeLoop, hh]
      refine ⟨by omega, by simp only [List.length_cons]; omega, ?_, ?_⟩
      · intro he
        rcases hcm with ⟨h1, h2⟩ | ⟨h1, h2⟩
        · refine ⟨by omega, ?_⟩
          rw [h2]
          have hidx : st1.processed - st.processed - 1 = 0 := by omega
          rw [hidx]
          simp
        · exact absurd he h1
      · intro he
        rcases hcm with ⟨h1, h2⟩ | ⟨h1, h2⟩
        · exact absurd h1 he
        · rw [h2]
          have hidx : st1.processed - st.processed = 1 := by omega
          rw [hidx]
          simp
    | cont st1 =>
      rw [hh] at hp hcm
      simp only [StepRes.exitOf, StepRes.state, Option.some.injEq, ne_eq] at hp hcm
      rcases hcm with ⟨h1, _⟩ | ⟨_, h2⟩
      · exact absurd h1 (by simp)
      simp only [consumeLoop, hh]
      obtain ⟨i1, i2, i3, i4⟩ := ih st1
      refine ⟨by omega, by simp only [List.length_cons]; omega, ?_, ?_⟩
      · intro he
        obtain ⟨j1, j2⟩ := i3 he
        refine ⟨by omega, ?_⟩
        have hidx : (consumeLoop env rest st1).1.processed - st.processed - 1 =
            ((consumeLoop env rest st1).1.processed - st1.processed - 1) + 1 := by
          omega
        rw [hidx, List.take_succ_cons, List.map_cons, j2, h2]
        simp
      · intro he
        have j := i4 he
        have hidx : (consumeLoop env rest st1).1.processed - st.processed =
            ((consumeLoop env rest st1).1.processed - st1.processed) + 1 := by
          omega
        rw [hidx, List.take_succ_cons, List.map_cons, j, h2]
        simp

/-! ## Invariant preservation for the buffer-cap bound -/

/-- After any `store_now`, the buffer invariant holds (the buffer is empty). -/
theorem store_now_bufInv {Item Row : Type} (env : Env Item Row) (st : St Item) :
    BufInv (store_now env st).2 := by
  unfold BufInv
  rw [store_now_buffer]
  simp only [List.length_nil, batches_size]
  omega

/-- `store_now` does not log flush triggers, so it preserves `TriggerInv`. -/
theorem store_now_triggerInv {Item Row : Type} (env : Env Item Row)
    (st : St Item) (h : TriggerInv st) : TriggerInv (store_now env st).2 := by
  unfold TriggerInv at h ⊢
  rw [store_now_flushTriggers]
  exact h

/-- `store_item` preserves both invariants, and any trigger it logs respects
the corrected cap. -/
theorem store_item_inv {Item Row : Type} (env : Env Item Row) (item : Item)
    (st : St Item) (hb : BufInv st) (ht : TriggerInv st) :
    BufInv (store_item env item st) ∧ TriggerInv (store_item env item st) := by
  unfold store_item
  dsimp only
  split
  · constructor
    · exact store_now_bufInv env _
    · apply store_now_triggerInv
      unfold TriggerInv at ht ⊢
      intro p hp
      simp only [List.mem_append, List.mem_singleton] at hp
      rcases hp with hp | hp
      · exact ht p hp
      · subst hp
        unfold BufInv at hb
        simp only [List.length_append, List.length_cons, List.length_nil]
        omega
  · constructor
    · unfold BufInv at hb ⊢
      simp only [List.length_append, List.length_cons, List.length_nil] at *
      rename_i hcond
      rw [not_or] at hcond
      obtain ⟨h1, h2⟩ := hcond
      simp only [not_le, List.length_append, List.length_cons, List.length_nil,
        batches_size] at h1 h2 ⊢
      omega
    · exact ht

/-- `quietCheckpoint` preserves both invariants. -/
theorem quietCheckpoint_inv {Item Row : Type} (env : Env Item Row)
    (st : St Item) (hb : BufInv st) (ht : TriggerInv st) :
    BufInv (quietCheckpoint env st).state ∧
    TriggerInv (quietCheckpoint env st).state := by
  unfold quietCheckpoint
  dsimp only
  split
  · split <;>
      exact ⟨store_now_bufInv env _, store_now_triggerInv env _ ht⟩
  · exact ⟨hb, ht⟩

/-- A loop-body iteration preserves both invariants. -/
theorem handleMessage_inv {Item Row : Type} (env : Env Item Row) (m : Msg Item)
    (st : St Item) (hb : BufInv st) (ht : TriggerInv st) :
    BufInv (handleMessage env m st).state ∧
    TriggerInv (handleMessage env m st).state := by
  unfold handleMessage
  dsimp only
  split
  · obtain ⟨hb1, ht1⟩ :=
      store_item_inv env m.payload { st with processed := st.processed + 1 } hb ht
    split
    · exact ⟨hb1, ht1⟩
    · exact quietCheckpoint_inv env _ hb1 ht1
  · exact quietCheckpoint_inv env _ hb ht

/-- The loop preserves both invariants. -/
theorem consumeLoop_inv {Item Row : Type} (env : Env Item Row)
    (msgs : List (Msg Item)) (st : St Item) (hb : BufInv st) (ht : TriggerInv st) :
    BufInv (consumeLoop env msgs st).1 ∧ TriggerInv (consumeLoop env msgs st).1 := by
  induction msgs generalizing st with
  | nil => exact ⟨hb, ht⟩
  | cons m rest ih =>
    have h := handleMessage_inv env m st hb ht
    cases hh : handleMessage env m st with
    | brk st1 e =>
      rw [hh] at h
      simp only [StepRes.state] at h
      simp only [consumeLoop, hh]
      exact h
    | cont st1 =>
      rw [hh] at h
      simp only [StepRes.state] at h
      simp only [consumeLoop, hh]
      exact ih st1 h.1 h.2

/-! ## Unfolding equations for `process_messages` -/

/-- `process_messages` on a state whose remaining count is 0. -/
theorem process_messages_eq_zero {Item Row : Type} (env : Env Item Row)
    (msgs : List (Msg Item)) (st : St Item) (h : st.remaining_count = 0) :
    process_messages env msgs st =
      { result := 0, stExit := st, stFin := st, exit := Exit.initialZero } := by
  unfold process_messages
  rw [if_pos h]

/-- `process_messages` on a state whose remaining count is not 0. -/
theorem process_messages_eq_pos {Item Row : Type} (env : Env Item Row)
    (msgs : List (Msg Item)) (st : St Item) (h : ¬ st.remaining_count = 0) :
    process_messages env msgs st =
      { result := (store_now env (consumeLoop env msgs (stStart env st)).1).2.stored_counter,
        stExit := (consumeLoop env msgs (stStart env st)).1,
        stFin := (store_now env (consumeLoop env msgs (stStart env st)).1).2,
        exit := (consumeLoop env msgs (stStart env st)).2 } := by
  unfold process_messages
  rw [if_neg h]

/-- `stStart` keeps `processed`. -/
theorem stStart_processed {Item Row : Type} (env : Env Item Row) (st : St Item) :
    (stStart env st).processed = st.processed := rfl

/-- `stStart` keeps `commits`. -/
theorem stStart_commits {Item Row : Type} (env : Env Item Row) (st : St Item) :
    (stStart env st).commits = st.commits := rfl

/-- `stStart` keeps `stored_counter`. -/
theorem stStart_stored_counter {Item Row : Type} (env : Env Item Row)
    (st : St Item) : (stStart env st).stored_counter = st.stored_counter := rfl

/-- `stStart` keeps `flushLog`. -/
theorem stStart_flushLog {Item Row : Type} (env : Env Item Row) (st : St Item) :
    (stStart env st).flushLog = st.flushLog := rfl

/-- `stStart` keeps `waiting_items`. -/
theorem stStart_waiting_items {Item Row : Type} (env : Env Item Row)
    (st : St Item) : (stStart env st).waiting_items = st.waiting_items := rfl

/-- `stStart` keeps `flushTriggers`. -/
theorem stStart_flushTriggers {Item Row : Type} (env : Env Item Row)
    (st : St Item) : (stStart env st).flushTriggers = st.flushTriggers := rfl

/-- `stStart` keeps `remaining_count`. -/
theorem stStart_remaining_count {Item Row : Type} (env : Env Item Row)
    (st : St Item) : (stStart env st).remaining_count = st.remaining_count := rfl

/-! ## Claims -/

/-- C1, counterexample.  The claim says `last_stored_at` is advanced and
`update_remaining_count` is called iff the flush was effective (affected
count > 0).  In the source the `else` branch of `if updated is None` runs
whenever `fetchall` produced a row list, including an empty one: at a state
with `last_stored_at = 0` and environment `envEmptyRows` (every fetch yields
an empty row list) the flush returns 0, yet `refreshIdx` is bumped (the
remaining count was re-queried) and `last_stored_at` becomes 99.  So the
claimed equivalence is false at this input. -/
theorem store_now_progress_iff_effective_cex :
    ¬ ((((store_now envEmptyRows (stFresh 5)).2.refreshIdx ≠ (stFresh 5).refreshIdx) ∨
        ((store_now envEmptyRows (stFresh 5)).2.last_stored_at ≠ (stFresh 5).last_stored_at))
       ↔ 0 < (store_now envEmptyRows (stFresh 5)).1) := by
  decide

/-- C1, amended.  `store_now` advances `last_stored_at` and re-queries the
remaining count if and only if the fetch produced a row list (possibly empty,
and the `ProgrammingError` no-result-rows case is converted to the empty
list); only a `None` fetch result leaves both untouched and is also the only
other source of a 0 return. -/
theorem store_now_progress_iff_fetch_list {Item Row : Type} (env : Env Item Row)
    (st : St Item) :
    (env.fetch st.flushIdx = FetchOutcome.retNone →
      (store_now env st).1 = 0 ∧
      (store_now env st).2.last_stored_at = st.last_stored_at ∧
      (store_now env st).2.refreshIdx = st.refreshIdx ∧
      (store_now env st).2.remaining_count = st.remaining_count) ∧
    (env.fetch st.flushIdx ≠ FetchOutcome.retNone →
      (store_now env st).2.last_stored_at = env.clock st.clockIdx ∧
      (store_now env st).2.refreshIdx = st.refreshIdx + 1 ∧
      (store_now env st).2.remaining_count = env.refresh st.refreshIdx) := by
  cases h : env.fetch st.flushIdx <;> simp [store_now, h]

/-- Witness for C1's amended theorem: both hypotheses are satisfiable, at
`envRetNone` (fetch returns `None`) and `envEmptyRows` (fetch returns a
list). -/
theorem store_now_progress_iff_fetch_list_witness :
    ((store_now envRetNone (stFresh 4)).1 = 0 ∧
     (store_now envRetNone (stFresh 4)).2.last_stored_at = (stFresh 4).last_stored_at ∧
     (store_now envRetNone (stFresh 4)).2.refreshIdx = (stFresh 4).refreshIdx ∧
     (store_now envRetNone (stFresh 4)).2.remaining_count = (stFresh 4).remaining_count) ∧
    ((store_now envEmptyRows (stFresh 4)).2.last_stored_at =
       envEmptyRows.clock (stFresh 4).clockIdx ∧
     (store_now envEmptyRows (stFresh 4)).2.refreshIdx = (stFresh 4).refreshIdx + 1 ∧
     (store_now envEmptyRows (stFresh 4)).2.remaining_count =
       envEmptyRows.refresh (stFresh 4).refreshIdx) :=
  ⟨(store_now_progress_iff_fetch_list envRetNone (stFresh 4)).1 rfl,
   (store_now_progress_iff_fetch_list envEmptyRows (stFresh 4)).2 (by decide)⟩

/-- C2, counterexample.  The claim says every processed message's offset is
submitted for async commit before the loop continues or terminates.  In the
`env2`/`msgs2` run the single (valid) message is stored, the flush drives the
remaining count to 0, and the loop breaks at source line 156 before reaching
`commit_async` at line 162: one message was processed but the commit log is
empty at loop exit, and still empty after the final flush. -/
theorem commit_skipped_on_remaining_zero_cex :
    (process_messages env2 msgs2 (stFresh 1)).stExit.processed = 1 ∧
    (process_messages env2 msgs2 (stFresh 1)).exit = Exit.remainingZero ∧
    (process_messages env2 msgs2 (stFresh 1)).stExit.commits = [] ∧
    (process_messages env2 msgs2 (stFresh 1)).stFin.commits = [] := by
  decide

/-- C2, amended.  In a fresh run, the offsets submitted for async commit are
exactly `(topic, partition, offset+1, empty metadata)` of the processed
messages in order — except that when the loop breaks with `remainingZero`,
the accepted message that drove the remaining count to 0 is processed without
its offset ever being submitted (and the final flush submits none either). -/
theorem commits_cover_processed_messages {Item Row : Type} (env : Env Item Row)
    (msgs : List (Msg Item)) (st0 : St Item)
    (hc : st0.commits = []) (hp : st0.processed = 0) :
    (process_messages env msgs st0).stExit.processed ≤ msgs.length ∧
    ((process_messages env msgs st0).exit = Exit.remainingZero →
      1 ≤ (process_messages env msgs st0).stExit.processed ∧
      (process_messages env msgs st0).stExit.commits =
        (msgs.take ((process_messages env msgs st0).stExit.processed - 1)).map offsetOf) ∧
    ((process_messages env msgs st0).exit ≠ Exit.remainingZero →
      (process_messages env msgs st0).stExit.commits =
        (msgs.take ((process_messages env msgs st0).stExit.processed)).map offsetOf) ∧
    (process_messages env msgs st0).stFin.commits =
      (process_messages env msgs st0).stExit.commits := by
  by_cases h0 : st0.remaining_count = 0
  · rw [process_messages_eq_zero env msgs st0 h0]
    dsimp only
    refine ⟨by omega, ?_, ?_, rfl⟩
    · intro he
      simp at he
    · intro _
      rw [hc, hp]
      simp
  · rw [process_messages_eq_pos env msgs st0 h0]
    dsimp only
    obtain ⟨i1, i2, i3, i4⟩ := consumeLoop_commits env msgs (stStart env st0)
    simp only [stStart_processed, stStart_commits, hp, hc] at i1 i2 i3 i4
    refine ⟨by omega, ?_, ?_, store_now_commits env _⟩
    · intro he
      obtain ⟨j1, j2⟩ := i3 he
      refine ⟨by omega, ?_⟩
      rw [j2]
      simp
    · intro he
      have j := i4 he
      rw [j]
      simp

/-- Witness for C2's amended theorem, on the `env2`/`msgs2` run (which exits
with `remainingZero`). -/
theorem commits_cover_processed_messages_witness :
    (stFresh 1).commits = [] ∧ (stFresh 1).processed = 0 ∧
    (1 ≤ (process_messages env2 msgs2 (stFresh 1)).stExit.processed ∧
     (process_messages env2 msgs2 (stFresh 1)).stExit.commits =
       (msgs2.take ((process_messages env2 msgs2 (stFresh 1)).stExit.processed - 1)).map offsetOf) :=
  ⟨rfl, rfl,
   (commits_cover_processed_messages env2 msgs2 (stFresh 1) rfl rfl).2.1 (by decide)⟩

/-- C3: every run of `process_messages` ends in exactly one of the covered
ways — remaining count 0 (at entry, or at the break after a store), the
source yielding no further message (all messages handled), or the watchdog
giving up right after a forced flush that affected zero rows (the last flush
before loop exit logged 0).  The four-constructor `Exit` type together with
this accuracy statement shows no other normal exit exists. -/
theorem process_messages_exit_cases {Item Row : Type} (env : Env Item Row)
    (msgs : List (Msg Item)) (st0 : St Item) :
    ((process_messages env msgs st0).exit = Exit.initialZero ∧
      st0.remaining_count = 0 ∧ (process_messages env msgs st0).result = 0) ∨
    ((process_messages env msgs st0).exit = Exit.remainingZero ∧
      (process_messages env msgs st0).stExit.remaining_count = 0) ∨
    ((process_messages env msgs st0).exit = Exit.sourceExhausted ∧
      (process_messages env msgs st0).stExit.processed = st0.processed + msgs.length) ∨
    ((process_messages env msgs st0).exit = Exit.quietGiveUp ∧
      (process_messages env msgs st0).stExit.flushLog.getLast? = some 0) := by
  by_cases h0 : st0.remaining_count = 0
  · left
    rw [process_messages_eq_zero env msgs st0 h0]
    exact ⟨rfl, h0, rfl⟩
  · rw [process_messages_eq_pos env msgs st0 h0]
    dsimp only
    rcases consumeLoop_exit env msgs (stStart env st0) with h | h | h
    · right; left
      exact h
    · right; right; left
      refine ⟨h.1, ?_⟩
      rw [h.2, stStart_processed]
    · right; right; right
      exact h

/-- C4: in a fresh run, the value returned by `process_messages` equals the
sum of the affected counts returned by every flush call made during the run
(threshold-triggered, watchdog-forced, and the final unconditional one), as
recorded in the ghost `flushLog`. -/
theorem process_messages_conservation {Item Row : Type} (env : Env Item Row)
    (msgs : List (Msg Item)) (st0 : St Item)
    (h1 : st0.stored_counter = 0) (h2 : st0.flushLog = []) :
    (process_messages env msgs st0).result =
      ((process_messages env msgs st0).stFin.flushLog).sum := by
  by_cases h0 : st0.remaining_count = 0
  · rw [process_messages_eq_zero env msgs st0 h0]
    dsimp only
    rw [h2]
    rfl
  · rw [process_messages_eq_pos env msgs st0 h0]
    dsimp only
    have hc := consumeLoop_counter env msgs (stStart env st0)
    rw [stStart_flushLog, stStart_stored_counter, h1, h2] at hc
    simp only [List.sum_nil, Nat.add_zero, Nat.zero_add] at hc
    rw [store_now_stored_counter, store_now_flushLog, List.sum_append]
    simp [hc]

/-- Witness for C4 on the `env2`/`msgs2` run (stored count 1 = sum of flush
log `[1, 0]`). -/
theorem process_messages_conservation_witness :
    (stFresh 1).stored_counter = 0 ∧ (stFresh 1).flushLog = [] ∧
    (process_messages env2 msgs2 (stFresh 1)).result =
      ((process_messages env2 msgs2 (stFresh 1)).stFin.flushLog).sum :=
  ⟨rfl, rfl, process_messages_conservation env2 msgs2 (stFresh 1) rfl rfl⟩

/-- C5, counterexample.  The claim bounds the buffer length before any
triggered flush by `min(500, remaining-at-buffering)`.  In the `env5`/`msgs5`
run, a quiet-period forced flush is effective but refreshes the remaining
count to 0, the loop continues, and the next valid message triggers a flush
from `store_item` with buffer length 1 while the remaining count is 0 —
exceeding `min(500, 0) = 0`. -/
theorem store_item_trigger_bound_cex :
    (process_messages env5 msgs5 (stFresh 5)).stFin.flushTriggers = [(1, 0)] ∧
    ¬ ((1 : Nat) ≤ min batches_size 0) := by
  decide

/-- C5, amended.  In a fresh run, the buffer length immediately before any
flush triggered by `store_item` never exceeds
`min(batches_size, max(1, remaining_count at buffering time))`: the claimed
`min(500, remaining)` bound holds whenever the remaining count is at least 1,
but when it is 0 a single just-buffered record already triggers a flush with
buffer length 1. -/
theorem store_item_trigger_bound {Item Row : Type} (env : Env Item Row)
    (msgs : List (Msg Item)) (st0 : St Item)
    (hbuf : st0.waiting_items = []) (htr : st0.flushTriggers = []) :
    ∀ p ∈ (process_messages env msgs st0).stFin.flushTriggers,
      p.1 ≤ min batches_size (max 1 p.2) := by
  have hb : BufInv st0 := by
    unfold BufInv
    rw [hbuf]
    simp only [List.length_nil, batches_size]
    omega
  have ht : TriggerInv st0 := by
    unfold TriggerInv
    rw [htr]
    simp
  by_cases h0 : st0.remaining_count = 0
  · rw [process_messages_eq_zero env msgs st0 h0]
    dsimp only
    exact ht
  · rw [process_messages_eq_pos env msgs st0 h0]
    dsimp only
    have hl := consumeLoop_inv env msgs (stStart env st0) hb ht
    exact store_now_triggerInv env _ hl.2

/-- Witness for C5's amended theorem: the trigger `(1, 0)` of the
`env5`/`msgs5` run satisfies the corrected cap. -/
theorem store_item_trigger_bound_witness :
    (stFresh 5).waiting_items = [] ∧ (stFresh 5).flushTriggers = [] ∧
    (1 : Nat) ≤ min batches_size (max 1 0) :=
  ⟨rfl, rfl,
   store_item_trigger_bound env5 msgs5 (stFresh 5) rfl rfl (1, 0) (by decide)⟩

/-- C6: after every `store_now` call the buffer `waiting_items` is empty,
whatever the fetch outcome (row list, empty list, `ProgrammingError`, or
`None`) — buffered records are discarded, never retried. -/
theorem store_now_clears_buffer {Item Row : Type} (env : Env Item Row)
    (st : St Item) : (store_now env st).2.waiting_items = [] := by
  cases h : env.fetch st.flushIdx <;> simp [store_now, h]

/-- C7: a flush whose fetch raises the driver's no-results condition
(`psycopg2.ProgrammingError`) returns affected-count 0; the condition is
swallowed by the `except` clause (the model returns normally), not propagated
as a failure. -/
theorem store_now_prog_error_returns_zero {Item Row : Type} (env : Env Item Row)
    (st : St Item) (h : env.fetch st.flushIdx = FetchOutcome.progError) :
    (store_now env st).1 = 0 := by
  simp [store_now, h]

/-- Witness for C7 at `envProgError`. -/
theorem store_now_prog_error_returns_zero_witness :
    envProgError.fetch (stFresh 2).flushIdx = FetchOutcome.progError ∧
    (store_now envProgError (stFresh 2)).1 = 0 :=
  ⟨rfl, store_now_prog_error_returns_zero envProgError (stFresh 2) rfl⟩

/-- C8: at a loop checkpoint where the elapsed time since `last_stored_at`
exceeds `max_quiet_period`, exactly one forced flush is attempted (`flushIdx`
grows by exactly one); if it affected more than zero rows the loop continues
with `last_stored_at` reset to the flush-time clock value, otherwise the loop
breaks with `quietGiveUp`. -/
theorem quiet_checkpoint_forced_flush {Item Row : Type} (env : Env Item Row)
    (st : St Item)
    (h : env.clock st.clockIdx - st.last_stored_at > env.maxQuietPeriod) :
    quietCheckpoint env st =
      (if (store_now env { st with clockIdx := st.clockIdx + 1 }).1 > 0
       then StepRes.cont (store_now env { st with clockIdx := st.clockIdx + 1 }).2
       else StepRes.brk (store_now env { st with clockIdx := st.clockIdx + 1 }).2
              Exit.quietGiveUp) ∧
    (store_now env { st with clockIdx := st.clockIdx + 1 }).2.flushIdx =
      st.flushIdx + 1 ∧
    ((store_now env { st with clockIdx := st.clockIdx + 1 }).1 > 0 →
      (store_now env { st with clockIdx := st.clockIdx + 1 }).2.last_stored_at =
        env.clock (st.clockIdx + 1)) := by
  refine ⟨?_, ?_, ?_⟩
  · unfold quietCheckpoint
    dsimp only
    rw [if_pos h]
  · rw [store_now_flushIdx]
  · intro hu
    exact store_now_pos_last env _ hu

/-- Witness for C8 at `envEmptyRows` (clock 99, last progress 0, quiet bound
10). -/
theorem quiet_checkpoint_forced_flush_witness :
    envEmptyRows.clock (stFresh 5).clockIdx - (stFresh 5).last_stored_at >
      envEmptyRows.maxQuietPeriod ∧
    (store_now envEmptyRows
      { stFresh 5 with clockIdx := (stFresh 5).clockIdx + 1 }).2.flushIdx =
      (stFresh 5).flushIdx + 1 :=
  ⟨by decide,
   (quiet_checkpoint_forced_flush envEmptyRows (stFresh 5) (by decide)).2.1⟩

/-- C9: when the remaining count is 0 as `process_messages` starts, it
returns 0 immediately, the state is unchanged (in particular
`consumerCreated` keeps its value: no consumer is created), and the run exits
through the initial check. -/
theorem process_messages_initial_zero {Item Row : Type} (env : Env Item Row)
    (msgs : List (Msg Item)) (st0 : St Item) (h : st0.remaining_count = 0) :
    (process_messages env msgs st0).result = 0 ∧
    (process_messages env msgs st0).stFin = st0 ∧
    (process_messages env msgs st0).stFin.consumerCreated = st0.consumerCreated ∧
    (process_messages env msgs st0).exit = Exit.initialZero := by
  rw [process_messages_eq_zero env msgs st0 h]
  exact ⟨rfl, rfl, rfl, rfl⟩

/-- Witness for C9 at remaining count 0. -/
theorem process_messages_initial_zero_witness :
    (stFresh 0).remaining_count = 0 ∧
    ((process_messages envEmptyRows ([] : List (Msg Nat)) (stFresh 0)).result = 0 ∧
     (process_messages envEmptyRows ([] : List (Msg Nat)) (stFresh 0)).stFin = stFresh 0 ∧
     (process_messages envEmptyRows ([] : List (Msg Nat)) (stFresh 0)).stFin.consumerCreated =
       (stFresh 0).consumerCreated ∧
     (process_messages envEmptyRows ([] : List (Msg Nat)) (stFresh 0)).exit =
       Exit.initialZero) :=
  ⟨rfl, process_messages_initial_zero envEmptyRows [] (stFresh 0) rfl⟩

/-- C10: the entry-point assert block passes iff all five required keys
(`message_validation`, `process_message`, `count_sd_name`, `biggest_sd_name`,
`start_end_col_table_name`) are present in `custom_methods` — so it fails
exactly when one of them is absent — and `stats_sd_name` is not among the
checked keys: a mapping containing exactly the five required keys (hence
without `stats_sd_name`) passes. -/
theorem get_kafka_times_asserts_spec :
    (∀ custom_methods : List String,
      get_kafka_times_asserts custom_methods = true ↔
        ∀ k ∈ requiredCustomMethods, custom_methods.contains k = true) ∧
    ("stats_sd_name" ∉ requiredCustomMethods) ∧
    get_kafka_times_asserts requiredCustomMethods = true := by
  refine ⟨?_, by decide, by decide⟩
  intro cm
  simp [get_kafka_times_asserts, List.all_eq_true]

end GetKafkaTimes
